import Mathlib

/-!
Shallow embedding of the lola-os core (execution engine, policy chain,
transaction pipeline, retry wrapper) in Lean 4, with theorems settling the
specification claims against the embedded code.

Sources embedded:
  * internal/security/policies/limit.go      (LimitPolicy.Check)
  * internal/security/enforcer.go            (Enforcer.Evaluate)
  * internal/security/policies/hitl.go       (HITLPolicy.Check)
  * internal/security/policies/readonly.go   (ReadOnlyPolicy.Check)
  * internal/tools/registry.go               (registry.Get)
  * internal/core/engine.go                  (Engine.Execute)
  * internal/blockchain/evm/receipt.go       (withRetry, WaitForReceipt,
                                              WaitForReceiptWithBackoff)
  * internal/blockchain/evm/tx.go            (buildAndSignDynamicFee,
                                              signTransaction)

Go `*big.Int` values are modelled as `Int`; Go `time.Time`/`time.Duration`
as `Nat` (a monotone clock in milliseconds; all observed instants are at or
after every recorded window start, matching `time.Now()`); Go maps as
association lists; Go's loosely typed `map[string]interface{}` argument bag
as a list of `String × GoValue` where `GoValue` carries the dynamic type
tag that Go type assertions (`v.(*big.Int)`, `v.(string)`) inspect.
-/

namespace LolaOS

/-- Dynamic values stored in a Go `map[string]interface{}` argument bag.
Only the type tag matters to the policies' type assertions. -/
inductive GoValue where
  | bigInt (i : Int)       -- a `*big.Int`
  | str (s : String)       -- a `string`
  | floatVal (units : Int) -- a `float64` (payload irrelevant to type tests)
  | boolVal (b : Bool)
  | nilVal
  deriving Repr, DecidableEq

/-- The argument bag `map[string]interface{}`: association list keyed by
argument name. -/
abbrev ArgMap : Type := List (String × GoValue)

/-- Go map lookup `args[k]` returning `(value, ok)` as `Option`. -/
def ArgMap.find (args : ArgMap) (k : String) : Option GoValue :=
  (List.lookup k args)

/-- Go error values as built and wrapped by the embedded code.
`wrap ctx e` is `fmt.Errorf("<ctx>: %w", e)`; `wrapAttempts op e n` is
`fmt.Errorf("%s: %w after %d attempts", op, e, n)`. -/
inductive GoErr where
  | errNotFound                     -- tools.ErrNotFound sentinel
  | errAlreadyExists                -- tools.ErrAlreadyExists sentinel
  | msg (s : String)                -- errors.New / fmt.Errorf without %w
  | wrap (ctx : String) (inner : GoErr)
  | wrapAttempts (op : String) (inner : GoErr) (attempts : Nat)
  deriving Repr, DecidableEq

/-- `errors.Is(e, target)` for sentinel targets: unwrap through the `%w`
chains and compare. -/
def GoErr.is : GoErr → GoErr → Bool
  | e, target =>
    if e = target then true
    else match e with
      | .wrap _ inner => inner.is target
      | .wrapAttempts _ inner _ => inner.is target
      | _ => false

/-- `security.EvaluationContext`: tool name, raw args, session.  The session
is carried as its identifier string (the only part any embedded policy could
consult). -/
structure EvaluationContext where
  tool : String
  args : ArgMap
  sessionID : String
  deriving Repr, DecidableEq

/-! ### LimitPolicy (internal/security/policies/limit.go) -/

/-- Mutable state of `LimitPolicy`: the two optional ceilings, the two
per-key maps and the window duration institution (`24h`). -/
structure LimitPolicy where
  maxTxValue : Option Int          -- per-transaction maximum (none = no limit)
  dailyLimit : Option Int          -- daily total maximum (none = no limit)
  dailySpent : List (String × Int) -- key -> total spent in current window
  dailyReset : List (String × Nat) -- key -> last reset time
  window : Nat                     -- 24h
  deriving Repr, DecidableEq

/-- `NewLimitPolicy`: empty maps, 24-hour window (in milliseconds). -/
def NewLimitPolicy (maxTx daily : Option Int) : LimitPolicy :=
  { maxTxValue := maxTx
  , dailyLimit := daily
  , dailySpent := []
  , dailyReset := []
  , window := 24 * 60 * 60 * 1000 }

/-- Association-list update, modelling Go map assignment `m[k] = v`. -/
def setAssoc {α : Type} (m : List (String × α)) (k : String) (v : α) :
    List (String × α) :=
  match m with
  | [] => [(k, v)]
  | (k', v') :: rest =>
      if k' = k then (k, v) :: rest else (k', v') :: setAssoc rest k v

/-- `LimitPolicy.Check`, embedded as a state transition.  `now` is the value
of `time.Now().UTC()` at the call.  Returns the error (`some` = deny) and
the policy state after the call.  The code computes the daily-limit map key
as the constant string `"agent"` (`agentID := "agent" // placeholder`),
ignoring the session. -/
def LimitPolicy.Check (p : LimitPolicy) (evalCtx : EvaluationContext)
    (now : Nat) : Option GoErr × LimitPolicy :=
  -- Only apply to transaction tools (send, transfer, etc.).
  if evalCtx.tool ≠ "transfer" ∧ evalCtx.tool ≠ "send" ∧ evalCtx.tool ≠ "swap" then
    (none, p)
  else
    -- Extract amount.
    match evalCtx.args.find "amount" with
    | none => (none, p)  -- tool without amount not limited by value
    | some amountRaw =>
      match amountRaw with
      | .bigInt amount =>
        -- Per-transaction limit.
        if (p.maxTxValue.any fun m => decide (amount > m)) then
          (some (.msg s!"transaction value {amount} exceeds per-tx limit {(p.maxTxValue).getD 0}"), p)
        else
          -- Daily limit.
          match p.dailyLimit with
          | none => (none, p)
          | some dailyLimit =>
            let agentID := "agent"  -- placeholder key used by the source
            -- reset window if absent or stale
            let staleOrAbsent :=
              match List.lookup agentID p.dailyReset with
              | none => true
              | some resetTime => now - resetTime > p.window
            let p₁ :=
              if staleOrAbsent then
                { p with dailySpent := setAssoc p.dailySpent agentID 0
                       , dailyReset := setAssoc p.dailyReset agentID now }
              else p
            let spent := (List.lookup agentID p₁.dailySpent).getD 0
            let newSpent := spent + amount
            if newSpent > dailyLimit then
              (some (.msg s!"daily limit {dailyLimit} exceeded, already spent {spent}, attempted +{amount}"), p₁)
            else
              (none,
               { p₁ with dailySpent := setAssoc p₁.dailySpent agentID newSpent })
      | _ => (none, p)  -- ignore if not *big.Int

/-! ### ReadOnlyPolicy (internal/security/policies/readonly.go) -/

/-- The fixed write-tool set of `ReadOnlyPolicy.Check` (`writeTools` map). -/
def readOnlyWriteTools : List String :=
  ["transfer", "send", "swap", "deploy", "approve"]

/-- `ReadOnlyPolicy.Check`: deny iff the tool is in the write set. -/
def ReadOnlyPolicy.Check (evalCtx : EvaluationContext) : Option GoErr :=
  if readOnlyWriteTools.contains evalCtx.tool then
    some (.msg "read-only mode: write operations are disabled")
  else
    none

/-! ### HITLPolicy (internal/security/policies/hitl.go)

`consoleApprove` blocks on stdin with a timeout; its interaction outcome is
passed in as `response : Option Bool` (`none` = no line arrived before the
timeout, `some b` = a line arrived and `b` says whether, lower-cased, it was
"y"/"yes").  Read errors from stdin are not modelled (the goroutine's
`errCh` path). -/

structure HITLPolicy where
  threshold : Option Int  -- none = no threshold configured
  timeoutMs : Nat
  mode : String
  deriving Repr, DecidableEq

/-- `NewHITLPolicy`: mode defaults to "console", timeout to 5 minutes. -/
def NewHITLPolicy (threshold : Option Int) (timeoutMs : Nat) (mode : String) :
    HITLPolicy :=
  { threshold := threshold
  , timeoutMs := if timeoutMs = 0 then 5 * 60 * 1000 else timeoutMs
  , mode := if mode = "" then "console" else mode }

/-- `HITLPolicy.consoleApprove` outcome given the human interaction. -/
def HITLPolicy.consoleApprove (p : HITLPolicy) (response : Option Bool) :
    Option GoErr :=
  match response with
  | none => some (.msg s!"human approval timed out after {p.timeoutMs}ms")
  | some affirmative =>
      if affirmative then none else some (.msg "human rejected transaction")

/-- `HITLPolicy.Check`.  Also returns whether approval was requested (the
`consoleApprove` prompt was reached), so silent passes are observable. -/
def HITLPolicy.Check (p : HITLPolicy) (evalCtx : EvaluationContext)
    (response : Option Bool) : Option GoErr × Bool :=
  -- Only apply to tools that send value.
  if evalCtx.tool ≠ "transfer" ∧ evalCtx.tool ≠ "send" ∧ evalCtx.tool ≠ "swap" then
    (none, false)
  else
    match evalCtx.args.find "amount" with
    | none => (none, false)
    | some amountRaw =>
      match amountRaw with
      | .bigInt amount =>
        -- Check threshold.
        if (match p.threshold with
            | none => true
            | some t => decide (amount ≤ t)) then
          (none, false)
        else
          -- Request approval.
          if p.mode = "console" then
            (p.consoleApprove response, true)
          else
            (some (.msg s!"unsupported HITL mode: {p.mode}"), false)
      | _ => (none, false)

/-! ### Enforcer (internal/security/enforcer.go) -/

/-- A `security.Policy` as seen by the enforcer: its `%T` type identity and
its `Check` method (pure decision per evaluation context; the stateful
policies are settled separately through their own transition functions). -/
structure Policy where
  name : String
  check : EvaluationContext → Option GoErr

/-- `Enforcer.Evaluate` on the snapshot of the policy list: iterate in
insertion order, stop at the first denial, wrap it with the policy's `%T`
identity.  Also returns how many policies had their `Check` invoked. -/
def Enforcer.Evaluate (policies : List Policy) (evalCtx : EvaluationContext) :
    Option GoErr × Nat :=
  match policies with
  | [] => (none, 0)
  | p :: rest =>
    match p.check evalCtx with
    | some err => (some (.wrap s!"policy {p.name}" err), 1)
    | none =>
      let (res, n) := Enforcer.Evaluate rest evalCtx
      (res, n + 1)

/-! ### Tool registry (internal/tools/registry.go) -/

/-- A host-supplied `tools.Tool`: pure function from the argument bag. -/
abbrev Tool : Type := ArgMap → Except GoErr GoValue

/-- The registry's map contents. -/
abbrev Registry : Type := List (String × Tool)

/-- `registry.Get`: `ErrNotFound` when the name is not registered. -/
def Registry.Get (r : Registry) (name : String) : Except GoErr Tool :=
  match List.lookup name r with
  | none => .error .errNotFound
  | some tool => .ok tool

/-! ### Engine.Execute (internal/core/engine.go) -/

/-- Observable effects of one `Engine.Execute` call: how many times the
enforcer's `Evaluate` ran and how many times a tool body ran. -/
structure ExecTrace where
  evaluateCalls : Nat
  toolRuns : Nat
  deriving Repr, DecidableEq

/-- `Engine.Execute`: resolve the tool, run the policy chain, run the tool,
wrapping errors exactly as the source does.  The session attached to (or
transiently created for) the call is summarised by `sessionID`. -/
def Engine.Execute (registry : Registry) (policies : List Policy)
    (sessionID : String) (toolName : String) (args : ArgMap) :
    Except GoErr GoValue × ExecTrace :=
  -- 1. Resolve tool from registry.
  match registry.Get toolName with
  | .error err => (.error (.wrap "execute" err), ⟨0, 0⟩)
  | .ok tool =>
    -- 2./3. Session and evaluation context.
    let evalCtx : EvaluationContext :=
      { tool := toolName, args := args, sessionID := sessionID }
    -- 4. Run security policies.
    match Enforcer.Evaluate policies evalCtx with
    | (some err, _) =>
        (.error (.wrap "execute: security policy denied" err), ⟨1, 0⟩)
    | (none, _) =>
      -- 5. Execute the tool.
      match tool args with
      | .error err =>
          (.error (.wrap s!"execute: tool {toolName} failed" err), ⟨1, 1⟩)
      | .ok result => (.ok result, ⟨1, 1⟩)

/-! ### Retry wrapper (internal/blockchain/evm/receipt.go, Client.withRetry)

The operation thunk is modelled as `fn : Nat → Except GoErr GoValue`, giving
the outcome of the i-th invocation (1-based attempt counter, as in the
source loop).  The backoff factor is a float in Go (default 2.0); it is
modelled as the exact rational `num/den` with floor division, which agrees
with the float computation for the configurations the code ships.
`cancelDuringWait i` says whether the caller context fires during the
backoff wait that follows attempt `i` (the `select` on `ctx.Done()`). -/

structure RetryConfig where
  maxAttempts : Nat
  initialBackoff : Nat
  maxBackoff : Nat
  backoffFactorNum : Nat
  backoffFactorDen : Nat
  deriving Repr, DecidableEq

/-- `ctx.Err()` after cancellation. -/
def ctxCanceledErr : GoErr := .msg "context canceled"

/-- Go `nil` error formatted through `%w` (only reachable when the retry
loop body never ran, i.e. `MaxAttempts = 0`). -/
def nilErr : GoErr := .msg "%!w(<nil>)"

/-- The retry loop of `Client.withRetry`.  `remaining` is how many of the
`MaxAttempts` iterations are still to run, `attempt` the 1-based counter of
the current iteration, `backoff` the current wait.  Returns the result and
the number of invocations of `fn` performed. -/
def withRetryLoop (cfg : RetryConfig) (op : String)
    (fn : Nat → Except GoErr GoValue) (cancelDuringWait : Nat → Bool) :
    Nat → Nat → Nat → Option GoErr → Except GoErr GoValue × Nat
  | 0, _, _, lastErr =>
      -- loop exhausted: fmt.Errorf("%s: %w after %d attempts", ...)
      (.error (.wrapAttempts op (lastErr.getD nilErr) cfg.maxAttempts), 0)
  | remaining + 1, attempt, backoff, _ =>
      match fn attempt with
      | .ok result => (.ok result, 1)
      | .error err =>
        if remaining = 0 then
          -- last allowed attempt: break, then wrap the last failure
          (.error (.wrapAttempts op err cfg.maxAttempts), 1)
        else if cancelDuringWait attempt then
          -- select: ctx.Done() fired during the backoff wait
          (.error ctxCanceledErr, 1)
        else
          let nextBackoff :=
            min (backoff * cfg.backoffFactorNum / cfg.backoffFactorDen)
                cfg.maxBackoff
          let rest :=
            withRetryLoop cfg op fn cancelDuringWait remaining (attempt + 1)
              nextBackoff (some err)
          (rest.1, rest.2 + 1)

/-- `Client.withRetry` entry point: run the loop from attempt 1 with the
initial backoff. -/
def Client.withRetry (cfg : RetryConfig) (op : String)
    (fn : Nat → Except GoErr GoValue) (cancelDuringWait : Nat → Bool) :
    Except GoErr GoValue × Nat :=
  withRetryLoop cfg op fn cancelDuringWait cfg.maxAttempts 1
    cfg.initialBackoff none

/-! ### Receipt polling (internal/blockchain/evm/receipt.go)

Timing model for the two pollers, for the scenario the claim is about: the
receipt query never finds a receipt, so the loop only ends through context
cancellation.  Time is a `Nat` clock in milliseconds; `cancelAt` is the
instant the caller context fires; queries themselves take no model time.
The value returned is the instant at which the call returns (with
`ctx.Err()`); `none` means the fuel ran out before the function returned.

`WaitForReceipt` waits on `select { <-ctx.Done(); <-ticker.C }`: if the
context fires before the next tick, the call returns at exactly the
cancellation instant.

`WaitForReceiptWithBackoff` has only a non-blocking `select ... default` at
the top of each iteration and then calls `time.Sleep(backoff)`, which is
not interruptible: a context that fires during the sleep is observed only
when the sleep ends and the next iteration begins. -/

/-- Return instant of `Client.WaitForReceipt` (ticker interval `tickMs`,
loop entered at instant `t`, receipt never found). -/
def WaitForReceipt.returnTime (cancelAt tickMs : Nat) :
    Nat → Nat → Option Nat
  | 0, _ => none
  | fuel + 1, t =>
    if cancelAt ≤ t then some t
    else if cancelAt < t + tickMs then some cancelAt
    else WaitForReceipt.returnTime cancelAt tickMs fuel (t + tickMs)

/-- Return instant of `Client.WaitForReceiptWithBackoff` (initial backoff
passed in `backoff`, factor 1.5, cap `maxB`; receipt never found). -/
def WaitForReceiptWithBackoff.returnTime (cancelAt maxB : Nat) :
    Nat → Nat → Nat → Option Nat
  | 0, _, _ => none
  | fuel + 1, backoff, t =>
    if cancelAt ≤ t then some t
    else
      -- poll (no receipt), then time.Sleep(backoff) — not interruptible
      WaitForReceiptWithBackoff.returnTime cancelAt maxB fuel
        (min (backoff * 3 / 2) maxB) (t + backoff)

/-! ### Transaction building (internal/blockchain/evm/tx.go)

The adapter responses the builder consults, on the success path of each
remote call (RPC failures abort the build and are orthogonal to the fee
claims): the latest block header base fee (`none` on a pre-EIP-1559
network), the suggested gas price, the suggested tip cap, and the gas
estimate. -/

structure ChainEnv where
  baseFee : Option Int       -- header.BaseFee from HeaderByNumber
  suggestedGasPrice : Int    -- SuggestGasPrice
  suggestedTipCap : Int      -- SuggestGasTipCap
  estimatedGas : Nat         -- EstimateGas
  deriving Repr, DecidableEq

/-- `TxOpts`.  A nil `*TxOpts` is modelled as the zero-valued struct, which
is what the nil-guarded field reads in the source produce. -/
structure TxOpts where
  gasLimit : Nat := 0             -- 0 = estimate
  gasPrice : Option Int := none   -- legacy (none = estimate)
  gasFeeCap : Option Int := none  -- dynamic (none = estimate)
  gasTipCap : Option Int := none  -- dynamic (none = estimate)
  nonce : Option Nat := none      -- none = fetch pending nonce
  dynamicFee : Bool := false
  deriving Repr, DecidableEq

structure LegacyTxFields where
  nonce : Nat
  toAddr : Option String
  value : Int
  gas : Nat
  gasPrice : Int
  data : List Nat
  deriving Repr, DecidableEq

structure DynamicTxFields where
  nonce : Nat
  toAddr : Option String
  value : Int
  gas : Nat
  gasFeeCap : Int
  gasTipCap : Int
  data : List Nat
  deriving Repr, DecidableEq

/-- The unsigned transaction assembled by the build routines. -/
inductive UnsignedTx where
  | legacy (t : LegacyTxFields)
  | dynamic (t : DynamicTxFields)
  deriving Repr, DecidableEq

/-- The `unsignedTx` constructed by `buildAndSignLegacy` before
`signTransaction` is applied. -/
def TxBuilder.buildUnsignedLegacy (env : ChainEnv) (toAddr : Option String)
    (value : Int) (data : List Nat) (opts : TxOpts) (nonce : Nat) :
    UnsignedTx :=
  let gasLimit := if opts.gasLimit = 0 then env.estimatedGas else opts.gasLimit
  let gasPrice :=
    match opts.gasPrice with
    | none => env.suggestedGasPrice
    | some price => price
  .legacy { nonce := nonce, toAddr := toAddr, value := value, gas := gasLimit
          , gasPrice := gasPrice, data := data }

/-- The `unsignedTx` constructed by `buildAndSignDynamicFee` before
`signTransaction` is applied, including the fallback to the legacy routine
when the latest header carries no base fee. -/
def TxBuilder.buildUnsignedDynamicFee (env : ChainEnv) (toAddr : Option String)
    (value : Int) (data : List Nat) (opts : TxOpts) (nonce : Nat) :
    UnsignedTx :=
  match env.baseFee with
  | none =>
      -- Chain does not support EIP-1559; fall back to legacy.
      TxBuilder.buildUnsignedLegacy env toAddr value data opts nonce
  | some baseFee =>
    let gasLimit :=
      if opts.gasLimit = 0 then env.estimatedGas else opts.gasLimit
    let gasTipCap :=
      match opts.gasTipCap with
      | none => env.suggestedTipCap
      | some tip => tip
    let gasFeeCap :=
      match opts.gasFeeCap with
      | none => baseFee * 2 + gasTipCap
      | some cap => cap
    .dynamic { nonce := nonce, toAddr := toAddr, value := value, gas := gasLimit
             , gasFeeCap := gasFeeCap, gasTipCap := gasTipCap, data := data }

/-- The fee-model dispatch shared by `BuildTransfer`, `BuildContractCall`
and `BuildDeploy`: the dynamic-fee routine runs iff `opts.DynamicFee` is
set (`opts != nil && opts.DynamicFee`; a nil `*TxOpts` is the zero struct,
whose `dynamicFee` is `false`). -/
def TxBuilder.buildUnsigned (env : ChainEnv) (toAddr : Option String)
    (value : Int) (data : List Nat) (opts : TxOpts) (nonce : Nat) :
    UnsignedTx :=
  if opts.dynamicFee then
    TxBuilder.buildUnsignedDynamicFee env toAddr value data opts nonce
  else
    TxBuilder.buildUnsignedLegacy env toAddr value data opts nonce

/-- The signature handling inside `TxBuilder.signTransaction`: length gate
and recovery-byte normalization.  Input is the raw signature returned by
`wallet.Sign` (bytes as `Nat < 256`); output is the signature attached via
`WithSignature` (digest computation and transaction assembly abstracted). -/
def TxBuilder.signTransaction (signature : List Nat) :
    Except GoErr (List Nat) :=
  if signature.length ≠ 65 then
    .error (.msg s!"txbuilder: invalid signature length: {signature.length}")
  else
    let v := signature.getD 64 0
    let v2 := if v ≥ 27 then v - 27 else v
    .ok (signature.set 64 v2)

/-! ## Claims -/

/-- C1: with a daily ceiling configured, on a write tool whose args carry a
`*big.Int` amount that passes the per-transaction check, and with a current
(non-stale) spend window recorded for the identity key: if the window total
plus the amount exceeds the daily ceiling, `Check` denies with a message
citing the already-spent and attempted amounts and leaves the policy state
exactly as it was (a denied attempt never counts against future capacity);
otherwise `Check` passes and the new total is committed into the window. -/
theorem C1_daily_limit_deny_without_commit
    (p : LimitPolicy) (evalCtx : EvaluationContext) (now : Nat)
    (amount dailyLimit spent : Int) (resetTime : Nat)
    (htool : evalCtx.tool = "transfer" ∨ evalCtx.tool = "send" ∨ evalCtx.tool = "swap")
    (hamt : evalCtx.args.find "amount" = some (.bigInt amount))
    (hperTx : ∀ m, p.maxTxValue = some m → amount ≤ m)
    (hdaily : p.dailyLimit = some dailyLimit)
    (hreset : List.lookup "agent" p.dailyReset = some resetTime)
    (hfresh : now - resetTime ≤ p.window)
    (hspent : List.lookup "agent" p.dailySpent = some spent) :
    (spent + amount > dailyLimit →
      p.Check evalCtx now =
        (some (.msg s!"daily limit {dailyLimit} exceeded, already spent {spent}, attempted +{amount}"), p)) ∧
    (spent + amount ≤ dailyLimit →
      p.Check evalCtx now =
        (none, { p with dailySpent := setAssoc p.dailySpent "agent" (spent + amount) })) := by
  have htoolguard :
      ¬(evalCtx.tool ≠ "transfer" ∧ evalCtx.tool ≠ "send" ∧ evalCtx.tool ≠ "swap") := by
    rcases htool with h | h | h <;> simp [h]
  have hperTxBool : (p.maxTxValue.any fun m => decide (amount > m)) = false := by
    cases hmx : p.maxTxValue with
    | none => rfl
    | some m =>
      have hm := hperTx m hmx
      show decide (amount > m) = false
      simp only [decide_eq_false_iff_not]
      omega
  have hstaleBool : decide (now - resetTime > p.window) = false := by
    simp only [decide_eq_false_iff_not]
    omega
  have hkey : p.Check evalCtx now =
      (if spent + amount > dailyLimit then
        (some (.msg s!"daily limit {dailyLimit} exceeded, already spent {spent}, attempted +{amount}"), p)
      else
        (none, { p with dailySpent := setAssoc p.dailySpent "agent" (spent + amount) })) := by
    simp only [LimitPolicy.Check, if_neg htoolguard, hamt, hperTxBool, hdaily,
      hreset, hspent, hstaleBool, Bool.false_eq_true, if_false,
      Option.getD_some]
  constructor
  · intro hover
    rw [hkey, if_pos hover]
  · intro hunder
    rw [hkey, if_neg (by omega)]

/-- C1 witness: daily ceiling 10, window total 6, fresh window; a transfer
of 6 is denied and leaves the state untouched, a transfer of 4 passes and
commits a total of 10. -/
theorem C1_daily_limit_deny_without_commit_witness :
    (LimitPolicy.Check
        ⟨none, some 10, [("agent", 6)], [("agent", 0)], 86400000⟩
        ⟨"transfer", [("amount", .bigInt 6)], "s"⟩ 1000 =
      (some (.msg "daily limit 10 exceeded, already spent 6, attempted +6"),
        ⟨none, some 10, [("agent", 6)], [("agent", 0)], 86400000⟩)) ∧
    (LimitPolicy.Check
        ⟨none, some 10, [("agent", 6)], [("agent", 0)], 86400000⟩
        ⟨"transfer", [("amount", .bigInt 4)], "s"⟩ 1000 =
      (none, ⟨none, some 10, [("agent", 10)], [("agent", 0)], 86400000⟩)) := by
  refine ⟨?_, ?_⟩
  · exact (C1_daily_limit_deny_without_commit
      ⟨none, some 10, [("agent", 6)], [("agent", 0)], 86400000⟩
      ⟨"transfer", [("amount", .bigInt 6)], "s"⟩ 1000 6 10 6 0
      (.inl rfl) rfl (by intro m hm; cases hm) rfl (by rfl) (by decide)
      (by rfl)).1 (by decide)
  · have := (C1_daily_limit_deny_without_commit
      ⟨none, some 10, [("agent", 6)], [("agent", 0)], 86400000⟩
      ⟨"transfer", [("amount", .bigInt 4)], "s"⟩ 1000 4 10 6 0
      (.inl rfl) rfl (by intro m hm; cases hm) rfl (by rfl) (by decide)
      (by rfl)).2 (by decide)
    simpa [setAssoc] using this

/-- C2: the claim says an amount committed under one session never counts
against the daily capacity observed under another session with a distinct
identifier.  The code keys every daily window by the constant placeholder
string "agent" instead of the session identity, so the windows are shared:
with a daily ceiling of 10, session "s1" commits 6, and a subsequent check
under the distinct session "s2" for 6 is denied, its error citing the 6
already spent by "s1".  This theorem evaluates the embedded code at that
failing input. -/
theorem C2_distinct_sessions_share_spend_window :
    ((NewLimitPolicy none (some 10)).Check
        ⟨"transfer", [("amount", .bigInt 6)], "s1"⟩ 0).1 = none ∧
    (((NewLimitPolicy none (some 10)).Check
        ⟨"transfer", [("amount", .bigInt 6)], "s1"⟩ 0).2.Check
        ⟨"transfer", [("amount", .bigInt 6)], "s2"⟩ 1).1 =
      some (.msg "daily limit 10 exceeded, already spent 6, attempted +6") := by
  constructor
  · rfl
  · rfl

/-- C10: for a write tool in the limit set whose args carry an "amount"
value that is not a `*big.Int` (e.g. a float64 or a numeric string), the
type assertion fails and `LimitPolicy.Check` passes without performing
either the per-transaction or the daily check, leaving its state untouched
— such an operation is never value-limited. -/
theorem C10_non_bigint_amount_unlimited
    (p : LimitPolicy) (evalCtx : EvaluationContext) (now : Nat) (v : GoValue)
    (htool : evalCtx.tool = "transfer" ∨ evalCtx.tool = "send" ∨ evalCtx.tool = "swap")
    (hamt : evalCtx.args.find "amount" = some v)
    (hnb : ∀ i : Int, v ≠ .bigInt i) :
    p.Check evalCtx now = (none, p) := by
  have htoolguard :
      ¬(evalCtx.tool ≠ "transfer" ∧ evalCtx.tool ≠ "send" ∧ evalCtx.tool ≠ "swap") := by
    rcases htool with h | h | h <;> simp [h]
  cases v with
  | bigInt i => exact absurd rfl (hnb i)
  | str s => simp only [LimitPolicy.Check, if_neg htoolguard, hamt]
  | floatVal u => simp only [LimitPolicy.Check, if_neg htoolguard, hamt]
  | boolVal b => simp only [LimitPolicy.Check, if_neg htoolguard, hamt]
  | nilVal => simp only [LimitPolicy.Check, if_neg htoolguard, hamt]

/-- C10 witness: "amount" bound to the string "5000000" on a transfer, with
both ceilings configured at 1: the check passes and the state is unchanged.
-/
theorem C10_non_bigint_amount_unlimited_witness :
    (NewLimitPolicy (some 1) (some 1)).Check
        ⟨"transfer", [("amount", .str "5000000")], "s"⟩ 0 =
      (none, NewLimitPolicy (some 1) (some 1)) :=
  C10_non_bigint_amount_unlimited
    (NewLimitPolicy (some 1) (some 1))
    ⟨"transfer", [("amount", .str "5000000")], "s"⟩ 0 (.str "5000000")
    (.inl rfl) rfl (fun i h => by cases h)

/-- Helper: when every policy in the list passes, `Evaluate` returns no
error after consulting each policy exactly once. -/
lemma evaluate_all_pass (ctx : EvaluationContext) :
    ∀ ps : List Policy, (∀ q ∈ ps, q.check ctx = none) →
      Enforcer.Evaluate ps ctx = (none, ps.length) := by
  intro ps
  induction ps with
  | nil => intro _; rfl
  | cons q rest ih =>
    intro h
    have hq : q.check ctx = none := h q (List.mem_cons_self q rest)
    have hr := ih fun r hr => h r (List.mem_cons_of_mem q hr)
    simp only [Enforcer.Evaluate, hq, hr, List.length_cons]

/-- Helper: with the policies before `p` passing and `p` denying,
`Evaluate` stops at `p`, consulting none of the policies after it. -/
lemma evaluate_first_deny (ctx : EvaluationContext) (p : Policy) (err : GoErr)
    (hdeny : p.check ctx = some err) :
    ∀ ps₁ : List Policy, (∀ q ∈ ps₁, q.check ctx = none) →
      ∀ ps₂ : List Policy,
        Enforcer.Evaluate (ps₁ ++ p :: ps₂) ctx =
          (some (.wrap s!"policy {p.name}" err), ps₁.length + 1) := by
  intro ps₁
  induction ps₁ with
  | nil =>
    intro _ ps₂
    simp only [List.nil_append, Enforcer.Evaluate, hdeny, List.length_nil]
  | cons q rest ih =>
    intro h ps₂
    have hq : q.check ctx = none := h q (List.mem_cons_self q rest)
    have hr := ih (fun r hr => h r (List.mem_cons_of_mem q hr)) ps₂
    simp only [List.cons_append, Enforcer.Evaluate, hq, List.append_eq, hr,
      List.length_cons]

/-- C4: for a tool name not present in the registry, `Engine.Execute`
returns an error wrapping the `ErrNotFound` sentinel (so `errors.Is`
recovers it), the enforcer is never invoked (zero `Evaluate` calls in the
trace) and no tool body runs. -/
theorem C4_unknown_tool_short_circuit
    (registry : Registry) (policies : List Policy) (sid toolName : String)
    (args : ArgMap) (h : List.lookup toolName registry = none) :
    Engine.Execute registry policies sid toolName args =
      (.error (.wrap "execute" .errNotFound), ⟨0, 0⟩) ∧
    (GoErr.wrap "execute" .errNotFound).is .errNotFound = true := by
  constructor
  · simp only [Engine.Execute, Registry.Get, h]
  · rfl

/-- C4 witness: a registry holding only "transfer", asked for "missing",
with a policy chain present. -/
theorem C4_unknown_tool_short_circuit_witness :
    Engine.Execute [("transfer", fun _ => .ok .nilVal)]
        [⟨"*policies.ReadOnlyPolicy", fun _ => some (.msg "read-only mode: write operations are disabled")⟩]
        "s" "missing" [] =
      (.error (.wrap "execute" .errNotFound), ⟨0, 0⟩) :=
  (C4_unknown_tool_short_circuit
    [("transfer", fun _ => .ok .nilVal)]
    [⟨"*policies.ReadOnlyPolicy", fun _ => some (.msg "read-only mode: write operations are disabled")⟩]
    "s" "missing" [] rfl).1

/-- C5: `Enforcer.Evaluate` consults the policy list in insertion order and
returns the first denial wrapped with the identity of the denying policy,
consulting exactly the policies up to and including it (so no later policy
is consulted, whatever `ps₂` holds); when every policy passes it returns no
error after consulting them all; an enforcer with zero policies allows
every operation. -/
theorem C5_enforcer_insertion_order_first_denial
    (ctx : EvaluationContext) (ps ps₁ ps₂ : List Policy) (p : Policy)
    (err : GoErr)
    (hall : ∀ q ∈ ps, q.check ctx = none)
    (hpass : ∀ q ∈ ps₁, q.check ctx = none)
    (hdeny : p.check ctx = some err) :
    Enforcer.Evaluate [] ctx = (none, 0) ∧
    Enforcer.Evaluate ps ctx = (none, ps.length) ∧
    Enforcer.Evaluate (ps₁ ++ p :: ps₂) ctx =
      (some (.wrap s!"policy {p.name}" err), ps₁.length + 1) :=
  ⟨rfl, evaluate_all_pass ctx ps hall,
    evaluate_first_deny ctx p err hdeny ps₁ hpass ps₂⟩

/-- C5 witness: one passing policy, then a denier, then a second denier
that is never consulted: the result names the first denier and exactly two
policies were checked. -/
theorem C5_enforcer_insertion_order_first_denial_witness :
    Enforcer.Evaluate
        [⟨"*policies.WhitelistPolicy", fun _ => none⟩,
         ⟨"*policies.LimitPolicy", fun _ => some (.msg "limit exceeded")⟩,
         ⟨"*policies.HITLPolicy", fun _ => some (.msg "never consulted")⟩]
        ⟨"transfer", [], "s"⟩ =
      (some (.wrap "policy *policies.LimitPolicy" (.msg "limit exceeded")), 2) := by
  have h := (C5_enforcer_insertion_order_first_denial
    ⟨"transfer", [], "s"⟩ []
    [⟨"*policies.WhitelistPolicy", fun _ => none⟩]
    [⟨"*policies.HITLPolicy", fun _ => some (.msg "never consulted")⟩]
    ⟨"*policies.LimitPolicy", fun _ => some (.msg "limit exceeded")⟩
    (.msg "limit exceeded")
    (fun q hq => by cases hq)
    (fun q hq => by
      rw [List.mem_singleton] at hq
      subst hq
      rfl)
    rfl).2.2
  simpa using h

/-- One-step unfolding of the retry loop with iterations remaining. -/
lemma withRetryLoop_succ_eq (cfg : RetryConfig) (op : String)
    (fn : Nat → Except GoErr GoValue) (cancel : Nat → Bool)
    (r a b : Nat) (last : Option GoErr) :
    withRetryLoop cfg op fn cancel (r + 1) a b last =
      (match fn a with
       | .ok result => (.ok result, 1)
       | .error err =>
         if r = 0 then
           (.error (.wrapAttempts op err cfg.maxAttempts), 1)
         else if cancel a then
           (.error ctxCanceledErr, 1)
         else
           let nextBackoff :=
             min (b * cfg.backoffFactorNum / cfg.backoffFactorDen)
                 cfg.maxBackoff
           let rest :=
             withRetryLoop cfg op fn cancel r (a + 1) nextBackoff (some err)
           (rest.1, rest.2 + 1)) := rfl

/-- Helper: if the operation fails on the `r` attempts starting at `a` and
succeeds on attempt `a + r`, the loop (entered with `r + 1` iterations
left) returns that success after exactly `r + 1` invocations. -/
lemma withRetryLoop_success (cfg : RetryConfig) (op : String)
    (fn : Nat → Except GoErr GoValue) (v : GoValue) (e : Nat → GoErr) :
    ∀ r a b last,
      (∀ i, i < r → fn (a + i) = .error (e (a + i))) →
      fn (a + r) = .ok v →
      withRetryLoop cfg op fn (fun _ => false) (r + 1) a b last =
        (.ok v, r + 1) := by
  intro r
  induction r with
  | zero =>
    intro a b last _ hsucc
    simp only [Nat.add_zero] at hsucc
    rw [withRetryLoop_succ_eq, hsucc]
  | succ m ih =>
    intro a b last hfail hsucc
    have ha : fn a = .error (e a) := by
      have := hfail 0 (Nat.succ_pos m)
      simpa using this
    have hr := ih (a + 1) (min (b * cfg.backoffFactorNum / cfg.backoffFactorDen) cfg.maxBackoff)
      (some (e a))
      (fun i hi => by
        have := hfail (i + 1) (by omega)
        have hshift : a + (i + 1) = a + 1 + i := by omega
        rwa [hshift] at this)
      (by
        have hshift : a + (m + 1) = a + 1 + m := by omega
        rwa [hshift] at hsucc)
    rw [withRetryLoop_succ_eq, ha]
    simp only [Nat.succ_ne_zero, if_false, Bool.false_eq_true, hr]

/-- Helper: if the operation fails on every attempt, the loop (entered with
`r + 1` iterations left, current attempt `a`) performs all of them and
returns the error wrapping the failure of the last attempt `a + r` and
stating `MaxAttempts` attempts. -/
lemma withRetryLoop_all_fail (cfg : RetryConfig) (op : String)
    (fn : Nat → Except GoErr GoValue) (e : Nat → GoErr)
    (hfail : ∀ i, fn i = .error (e i)) :
    ∀ r a b last,
      withRetryLoop cfg op fn (fun _ => false) (r + 1) a b last =
        (.error (.wrapAttempts op (e (a + r)) cfg.maxAttempts), r + 1) := by
  intro r
  induction r with
  | zero =>
    intro a b last
    rw [withRetryLoop_succ_eq, hfail a]
    simp only [Nat.add_zero, if_true, eq_self_iff_true, if_pos]
  | succ m ih =>
    intro a b last
    have hr := ih (a + 1)
      (min (b * cfg.backoffFactorNum / cfg.backoffFactorDen) cfg.maxBackoff)
      (some (e a))
    have hshift : a + 1 + m = a + (m + 1) := by omega
    rw [hshift] at hr
    rw [withRetryLoop_succ_eq, hfail a]
    simp only [Nat.succ_ne_zero, if_false, Bool.false_eq_true, hr]

/-- C3: with max-attempts `N ≥ 1` and the caller context never firing
during a backoff wait: an operation failing on attempts `1..N-1` and
succeeding on attempt `N` makes `withRetry` return that success after
exactly `N` invocations; an operation failing on every attempt is invoked
exactly `N` times and `withRetry` returns an error that wraps the failure
of the last attempt and states `N` attempts. -/
theorem C3_withRetry_exact_attempts
    (cfg : RetryConfig) (op : String) (N : Nat)
    (hN : cfg.maxAttempts = N) (hN1 : 1 ≤ N)
    (fn gn : Nat → Except GoErr GoValue) (e f : Nat → GoErr) (v : GoValue)
    (hfail : ∀ i, 1 ≤ i → i < N → fn i = .error (e i))
    (hsucc : fn N = .ok v)
    (hgn : ∀ i, gn i = .error (f i)) :
    Client.withRetry cfg op fn (fun _ => false) = (.ok v, N) ∧
    Client.withRetry cfg op gn (fun _ => false) =
      (.error (.wrapAttempts op (f N) N), N) := by
  obtain ⟨m, rfl⟩ : ∃ m, N = m + 1 := ⟨N - 1, by omega⟩
  constructor
  · have h := withRetryLoop_success cfg op fn v e m 1 cfg.initialBackoff none
      (fun i hi => hfail (1 + i) (by omega) (by omega))
      (by
        have hshift : (1 : Nat) + m = m + 1 := by omega
        rw [hshift]
        exact hsucc)
    unfold Client.withRetry
    rw [hN]
    exact h
  · have h := withRetryLoop_all_fail cfg op gn f hgn m 1 cfg.initialBackoff none
    have hshift : (1 : Nat) + m = m + 1 := by omega
    rw [hshift, hN] at h
    unfold Client.withRetry
    rw [hN]
    exact h

/-- C3 witness: max-attempts 3.  An operation failing twice then succeeding
is invoked 3 times and succeeds; an always-failing one is invoked 3 times
and the error wraps the last failure and states 3 attempts. -/
theorem C3_withRetry_exact_attempts_witness :
    Client.withRetry ⟨3, 500, 30000, 2, 1⟩ "BalanceAt"
        (fun i => if i < 3 then .error (.msg "rpc failure") else .ok (.str "receipt"))
        (fun _ => false) =
      (.ok (.str "receipt"), 3) ∧
    Client.withRetry ⟨3, 500, 30000, 2, 1⟩ "BalanceAt"
        (fun _ => .error (.msg "rpc failure")) (fun _ => false) =
      (.error (.wrapAttempts "BalanceAt" (.msg "rpc failure") 3), 3) :=
  C3_withRetry_exact_attempts ⟨3, 500, 30000, 2, 1⟩ "BalanceAt" 3 rfl
    (by omega)
    (fun i => if i < 3 then .error (.msg "rpc failure") else .ok (.str "receipt"))
    (fun _ => .error (.msg "rpc failure"))
    (fun _ => .msg "rpc failure") (fun _ => .msg "rpc failure") (.str "receipt")
    (fun i _ hi => by simp only [if_pos hi])
    (by simp)
    (fun _ => rfl)

/-- Helper: writing back the element already at a valid index leaves the
list unchanged. -/
lemma set_getD_eq_self : ∀ (l : List Nat) (n : Nat), n < l.length →
    l.set n (l.getD n 0) = l := by
  intro l
  induction l with
  | nil => intro n h; simp at h
  | cons x xs ih =>
    intro n h
    cases n with
    | zero => simp [List.getD]
    | succ k =>
      have hk : k < xs.length := by simpa using h
      have hx := ih k hk
      simp only [List.getD, List.get?_eq_getElem?] at hx
      simp [List.getD_cons_succ, List.getD, List.get?_eq_getElem?, hx]

/-- C6: `signTransaction` rejects any raw signature whose length is not 65
bytes; on a 65-byte signature a recovery byte of 27 is attached as 0, 28 as
1, and a recovery byte below 27 leaves the signature unchanged. -/
theorem C6_signature_normalization (sig : List Nat) (hlen : sig.length = 65) :
    (∀ s : List Nat, s.length ≠ 65 →
      TxBuilder.signTransaction s =
        .error (.msg s!"txbuilder: invalid signature length: {s.length}")) ∧
    (sig.getD 64 0 = 27 → TxBuilder.signTransaction sig = .ok (sig.set 64 0)) ∧
    (sig.getD 64 0 = 28 → TxBuilder.signTransaction sig = .ok (sig.set 64 1)) ∧
    (sig.getD 64 0 < 27 → TxBuilder.signTransaction sig = .ok sig) := by
  have hcond : ¬ (sig.length ≠ 65) := by simp [hlen]
  refine ⟨?_, ?_, ?_, ?_⟩
  · intro s hs
    simp only [TxBuilder.signTransaction, if_pos hs]
  · intro hv
    simp only [TxBuilder.signTransaction, if_neg hcond, hv]
    norm_num
  · intro hv
    simp only [TxBuilder.signTransaction, if_neg hcond, hv]
    norm_num
  · intro hv
    have hge : ¬ (sig.getD 64 0 ≥ 27) := by omega
    simp only [TxBuilder.signTransaction, if_neg hcond, if_neg hge]
    rw [set_getD_eq_self sig 64 (by omega)]

/-- C6 witness: a 66-byte signature is rejected; 65-byte signatures with
recovery byte 27, 28 and 1 are attached with recovery byte 0, 1 and 1
(unchanged) respectively. -/
theorem C6_signature_normalization_witness :
    (TxBuilder.signTransaction (List.replicate 66 0) =
      .error (.msg "txbuilder: invalid signature length: 66")) ∧
    (TxBuilder.signTransaction (List.replicate 64 2 ++ [27]) =
      .ok ((List.replicate 64 2 ++ [27]).set 64 0)) ∧
    (TxBuilder.signTransaction (List.replicate 64 2 ++ [28]) =
      .ok ((List.replicate 64 2 ++ [28]).set 64 1)) ∧
    (TxBuilder.signTransaction (List.replicate 64 2 ++ [1]) =
      .ok (List.replicate 64 2 ++ [1])) := by
  refine ⟨?_, ?_, ?_, ?_⟩
  · exact (C6_signature_normalization (List.replicate 64 2 ++ [27]) (by decide)).1
      (List.replicate 66 0) (by decide)
  · exact (C6_signature_normalization (List.replicate 64 2 ++ [27]) (by decide)).2.1
      (by decide)
  · exact (C6_signature_normalization (List.replicate 64 2 ++ [28]) (by decide)).2.2.1
      (by decide)
  · exact (C6_signature_normalization (List.replicate 64 2 ++ [1]) (by decide)).2.2.2
      (by decide)

/-- C7: when a dynamic-fee transaction is requested (`DynamicFee` set): if
the latest header carries no base fee, the legacy routine builds this
transaction instead; otherwise a dynamic-fee transaction is built in which
an unset tip-cap defaults to the suggested priority fee and an unset
fee-cap defaults to (2 × base fee) + the resolved tip-cap. -/
theorem C7_dynamic_fee_defaults
    (env : ChainEnv) (toAddr : Option String) (value : Int) (data : List Nat)
    (opts : TxOpts) (nonce : Nat) (hdyn : opts.dynamicFee = true) :
    (env.baseFee = none →
      TxBuilder.buildUnsigned env toAddr value data opts nonce =
        TxBuilder.buildUnsignedLegacy env toAddr value data opts nonce) ∧
    (∀ b, env.baseFee = some b →
      TxBuilder.buildUnsigned env toAddr value data opts nonce =
        .dynamic
          { nonce := nonce, toAddr := toAddr, value := value
          , gas := if opts.gasLimit = 0 then env.estimatedGas else opts.gasLimit
          , gasFeeCap :=
              (opts.gasFeeCap).getD
                (b * 2 + (opts.gasTipCap).getD env.suggestedTipCap)
          , gasTipCap := (opts.gasTipCap).getD env.suggestedTipCap
          , data := data }) := by
  constructor
  · intro hbf
    simp only [TxBuilder.buildUnsigned, hdyn, if_true,
      TxBuilder.buildUnsignedDynamicFee, hbf]
  · intro b hbf
    simp only [TxBuilder.buildUnsigned, hdyn, if_true,
      TxBuilder.buildUnsignedDynamicFee, hbf]
    cases htip : opts.gasTipCap with
    | none =>
      cases hcap : opts.gasFeeCap with
      | none => simp [htip, hcap]
      | some cap => simp [htip, hcap]
    | some tip =>
      cases hcap : opts.gasFeeCap with
      | none => simp [htip, hcap]
      | some cap => simp [htip, hcap]

/-- C7 witness: with `DynamicFee` set and everything else unset: on a
pre-EIP-1559 header (no base fee) the result is the legacy transaction
with suggested gas price 7; on a header with base fee 100 the result is a
dynamic transaction with tip-cap 3 (suggested) and fee-cap 203 = 2×100+3.
-/
theorem C7_dynamic_fee_defaults_witness :
    (TxBuilder.buildUnsigned ⟨none, 7, 3, 21000⟩ (some "0xabc") 5 []
        { dynamicFee := true } 9 =
      TxBuilder.buildUnsignedLegacy ⟨none, 7, 3, 21000⟩ (some "0xabc") 5 []
        { dynamicFee := true } 9) ∧
    (TxBuilder.buildUnsigned ⟨some 100, 7, 3, 21000⟩ (some "0xabc") 5 []
        { dynamicFee := true } 9 =
      .dynamic
        { nonce := 9, toAddr := some "0xabc", value := 5, gas := 21000
        , gasFeeCap := 203, gasTipCap := 3, data := [] }) := by
  constructor
  · exact (C7_dynamic_fee_defaults ⟨none, 7, 3, 21000⟩ (some "0xabc") 5 []
      { dynamicFee := true } 9 rfl).1 rfl
  · have h := (C7_dynamic_fee_defaults ⟨some 100, 7, 3, 21000⟩ (some "0xabc") 5 []
      { dynamicFee := true } 9 rfl).2 100 rfl
    simpa using h

/-- C8 counterexample: the claim says `HITLPolicy` gates the same write
set as `ReadOnlyPolicy`, which includes "deploy".  But on a deploy whose
`*big.Int` amount 10 exceeds the threshold 5, `Check` passes silently with
no approval requested — even with no human response available — because the
code's tool guard lists only transfer, send and swap. -/
theorem C8_counterexample_deploy_not_gated :
    readOnlyWriteTools.contains "deploy" = true ∧
    (NewHITLPolicy (some 5) 1000 "console").Check
        ⟨"deploy", [("amount", .bigInt 10)], "s"⟩ none = (none, false) := by
  constructor
  · rfl
  · rfl

/-- C8 amended: `HITLPolicy.Check` applies its threshold logic to the
write-tool set {transfer, send, swap} (the set `LimitPolicy` uses), a
strict subset of `ReadOnlyPolicy`'s set: for those tools, a `*big.Int`
amount above the threshold reaches the approval gate, whose outcome decides
the result (affirmative passes, rejection and timeout deny), while an
amount at or below the threshold passes silently; any other tool name —
including deploy and approve — passes silently. -/
theorem C8_hitl_gates_limit_write_set
    (p : HITLPolicy) (evalCtx : EvaluationContext) (response : Option Bool)
    (amount threshold : Int)
    (hmode : p.mode = "console") (hth : p.threshold = some threshold)
    (hamt : evalCtx.args.find "amount" = some (.bigInt amount)) :
    ((evalCtx.tool = "transfer" ∨ evalCtx.tool = "send" ∨ evalCtx.tool = "swap") →
      (amount > threshold →
        p.Check evalCtx response = (p.consoleApprove response, true)) ∧
      (amount ≤ threshold → p.Check evalCtx response = (none, false))) ∧
    ((evalCtx.tool ≠ "transfer" ∧ evalCtx.tool ≠ "send" ∧ evalCtx.tool ≠ "swap") →
      p.Check evalCtx response = (none, false)) ∧
    (p.consoleApprove none =
      some (.msg s!"human approval timed out after {p.timeoutMs}ms")) ∧
    (p.consoleApprove (some false) = some (.msg "human rejected transaction")) ∧
    (p.consoleApprove (some true) = none) := by
  refine ⟨?_, ?_, rfl, rfl, rfl⟩
  · intro htool
    have htoolguard :
        ¬(evalCtx.tool ≠ "transfer" ∧ evalCtx.tool ≠ "send" ∧ evalCtx.tool ≠ "swap") := by
      rcases htool with h | h | h <;> simp [h]
    constructor
    · intro hover
      have hthr : (match p.threshold with
                   | none => true
                   | some t => decide (amount ≤ t)) = false := by
        rw [hth]
        simp only [decide_eq_false_iff_not]
        omega
      simp only [HITLPolicy.Check, if_neg htoolguard, hamt, hthr,
        Bool.false_eq_true, if_false, if_pos hmode]
    · intro hunder
      have hthr : (match p.threshold with
                   | none => true
                   | some t => decide (amount ≤ t)) = true := by
        rw [hth]
        simpa using hunder
      simp only [HITLPolicy.Check, if_neg htoolguard, hamt, hthr, if_true]
  · intro htoolguard
    simp only [HITLPolicy.Check, if_pos htoolguard]

/-- C8 amended witness: threshold 5.  A transfer of 10 with no response
times out (deny) and with an affirmative response passes; a transfer of 5
passes silently; a deploy and an approve of 10 pass silently. -/
theorem C8_hitl_gates_limit_write_set_witness :
    ((NewHITLPolicy (some 5) 1000 "console").Check
        ⟨"transfer", [("amount", .bigInt 10)], "s"⟩ none =
      (some (.msg "human approval timed out after 1000ms"), true)) ∧
    ((NewHITLPolicy (some 5) 1000 "console").Check
        ⟨"transfer", [("amount", .bigInt 10)], "s"⟩ (some true) =
      (none, true)) ∧
    ((NewHITLPolicy (some 5) 1000 "console").Check
        ⟨"transfer", [("amount", .bigInt 5)], "s"⟩ none = (none, false)) ∧
    ((NewHITLPolicy (some 5) 1000 "console").Check
        ⟨"approve", [("amount", .bigInt 10)], "s"⟩ none = (none, false)) := by
  refine ⟨?_, ?_, ?_, ?_⟩
  · exact ((C8_hitl_gates_limit_write_set (NewHITLPolicy (some 5) 1000 "console")
      ⟨"transfer", [("amount", .bigInt 10)], "s"⟩ none 10 5 rfl rfl rfl).1
      (.inl rfl)).1 (by decide)
  · exact ((C8_hitl_gates_limit_write_set (NewHITLPolicy (some 5) 1000 "console")
      ⟨"transfer", [("amount", .bigInt 10)], "s"⟩ (some true) 10 5 rfl rfl rfl).1
      (.inl rfl)).1 (by decide)
  · exact ((C8_hitl_gates_limit_write_set (NewHITLPolicy (some 5) 1000 "console")
      ⟨"transfer", [("amount", .bigInt 5)], "s"⟩ none 5 5 rfl rfl rfl).1
      (.inl rfl)).2 (by decide)
  · exact (C8_hitl_gates_limit_write_set (NewHITLPolicy (some 5) 1000 "console")
      ⟨"approve", [("amount", .bigInt 10)], "s"⟩ none 10 5 rfl rfl rfl).2.1
      (by refine ⟨?_, ?_, ?_⟩ <;> decide)

/-- C9: with the receipt never appearing and the caller context firing at
instant 1 ms, `WaitForReceipt` (entered at instant 0, 1000 ms ticker)
returns at instant 1 — promptly, because its wait is a `select` on
`ctx.Done()` — while `WaitForReceiptWithBackoff` (entered at instant 0,
initial backoff 500 ms) returns only at instant 500: its `time.Sleep` wait
is not interruptible, so the cancellation is observed only once the
in-progress sleep has completed, contradicting the claim for the backoff
variant.  This theorem evaluates the embedded code at that failing input.
-/
theorem C9_backoff_wait_not_promptly_cancellable :
    WaitForReceipt.returnTime 1 1000 5 0 = some 1 ∧
    WaitForReceiptWithBackoff.returnTime 1 30000 5 500 0 = some 500 := by
  constructor
  · rfl
  · rfl

end LolaOS
